import Mathlib

/-!
Verification of the `tas_agent` TEE attestation agent.

Shallow embedding of the agent's four Rust modules:
* `crypto.rs`    — RSA key-pair generation guard, key unwrap, AES-256-CBC
                   encrypt/decrypt with PKCS7 padding (the block cipher itself
                   is an external library and is a parameter of the embedding);
* `tee_evidence.rs` — TEE-type determination and the evidence-collection flow
                   over the configfs tsm report interface, embedded as a
                   function of an abstract environment that also yields the
                   trace of interface operations performed;
* `utils.rs`     — base64 field decoding of the secrets payload;
* `main.rs`      — the orchestrator tail (envelope parse, key unwrap,
                   symmetric decrypt) and its debug output.

Bytes are `Nat` (values < 256 in real executions), byte strings are
`List Nat`, text is `List Char`.
-/

deriving instance DecidableEq for Except

namespace TasAgent

/-! ## Generic byte and character helpers -/

/-- Pointwise XOR of two byte strings (truncating to the shorter, as
`zipWith` does; all real uses have equal lengths). -/
def xorB (a b : List Nat) : List Nat := List.zipWith (fun x y => x ^^^ y) a b

/-- Rust `str::trim_matches('"')` on the byte level: remove all leading and
trailing double-quote bytes (34). -/
def trimQuotes (s : List Nat) : List Nat :=
  ((s.dropWhile (fun b => b == 34)).reverse.dropWhile (fun b => b == 34)).reverse

/-- Rust `str::trim`: remove leading and trailing whitespace characters. -/
def trimChars (s : List Char) : List Char :=
  ((s.dropWhile Char.isWhitespace).reverse.dropWhile Char.isWhitespace).reverse

/-! ## Base64 (RFC 4648 standard alphabet, padded), as used through the
`base64` crate's `general_purpose::STANDARD` engine. -/

def base64Table : List Char :=
  "ABCDEFGHIJKLMNOPQRSTUVWXYZabcdefghijklmnopqrstuvwxyz0123456789+/".toList

def b64Char (n : Nat) : Char := base64Table.getD n 'A'

/-- Standard base64 encoding with `=` padding, three input bytes per four
output characters. -/
def base64Encode : List Nat → List Char
  | [] => []
  | [a] => [b64Char (a / 4), b64Char (a % 4 * 16), '=', '=']
  | [a, b] => [b64Char (a / 4), b64Char (a % 4 * 16 + b / 16), b64Char (b % 16 * 4), '=']
  | a :: b :: c :: rest =>
    b64Char (a / 4) :: b64Char (a % 4 * 16 + b / 16) ::
      b64Char (b % 16 * 4 + c / 64) :: b64Char (c % 64) :: base64Encode rest

/-- Value of one base64 alphabet character. -/
def b64Val (c : Char) : Option Nat :=
  if 'A' ≤ c ∧ c ≤ 'Z' then some (c.toNat - 65)
  else if 'a' ≤ c ∧ c ≤ 'z' then some (c.toNat - 97 + 26)
  else if '0' ≤ c ∧ c ≤ '9' then some (c.toNat - 48 + 52)
  else if c = '+' then some 62
  else if c = '/' then some 63
  else none

/-- Strict standard base64 decoding: requires canonical padding and rejects
inputs whose length is not arbitrary multiple of four, foreign characters,
misplaced `=`, and non-zero trailing bits. -/
def base64Decode : List Char → Option (List Nat)
  | [] => some []
  | a :: b :: c :: d :: rest =>
    match b64Val a, b64Val b with
    | some va, some vb =>
      if c = '=' ∧ d = '=' then
        if rest = [] ∧ vb % 16 = 0 then some [va * 4 + vb / 16] else none
      else if d = '=' then
        match b64Val c with
        | some vc =>
          if rest = [] ∧ vc % 4 = 0 then
            some [va * 4 + vb / 16, vb % 16 * 16 + vc / 4]
          else none
        | none => none
      else
        match b64Val c, b64Val d with
        | some vc, some vd =>
          (base64Decode rest).map
            (fun t => (va * 4 + vb / 16) :: (vb % 16 * 16 + vc / 4) :: (vc % 4 * 64 + vd) :: t)
        | _, _ => none
    | _, _ => none
  | _ => none

/-! ## PKCS7 padding and CBC chaining (`crypto.rs`, via the `cbc` and
`block-padding` crates with block size 16) -/

/-- PKCS7 padding to a multiple of 16 bytes: append `n` copies of `n` where
`n = 16 - len % 16` (always between 1 and 16). -/
def pkcs7Pad (l : List Nat) : List Nat :=
  l ++ List.replicate (16 - l.length % 16) (16 - l.length % 16)

/-- PKCS7 unpadding: the last byte `n` must satisfy `1 ≤ n ≤ 16` and the last
`n` bytes must all equal `n`; otherwise the padding is rejected (an empty
input has no last byte and is rejected through the `1 ≤ 0` check). -/
def pkcs7Unpad (l : List Nat) : Option (List Nat) :=
  let n := l.getLast?.getD 0
  if 1 ≤ n ∧ n ≤ 16 ∧ n ≤ l.length ∧ ∀ x ∈ l.drop (l.length - n), x = n
  then some (l.take (l.length - n))
  else none

/-- Split a byte string into 16-byte blocks; `fuel` bounds the recursion and
is instantiated with the string's length. -/
def chunksAux : Nat → List Nat → List (List Nat)
  | _, [] => []
  | 0, _ :: _ => []
  | fuel + 1, a :: rest =>
    (a :: rest).take 16 :: chunksAux fuel ((a :: rest).drop 16)

/-- Split a byte string into 16-byte blocks (last block may be short if the
length is not a multiple of 16; all real uses are block-aligned). -/
def chunks16 (l : List Nat) : List (List Nat) := chunksAux l.length l

/-- CBC encryption over a block list: each plaintext block is XORed with the
previous ciphertext block (initially the IV) and passed through the keyed
block-cipher permutation `enc`. -/
def cbcEncBlocks (enc : List Nat → List Nat) : List Nat → List (List Nat) → List (List Nat)
  | _, [] => []
  | prev, p :: ps =>
    enc (xorB prev p) :: cbcEncBlocks enc (enc (xorB prev p)) ps

/-- CBC decryption over a block list: each ciphertext block is inverted with
`dec` and XORed with the previous ciphertext block (initially the IV). -/
def cbcDecBlocks (dec : List Nat → List Nat) : List Nat → List (List Nat) → List (List Nat)
  | _, [] => []
  | prev, c :: cs => xorB prev (dec c) :: cbcDecBlocks dec c cs

/-- Errors of the symmetric cipher layer; the source uses boxed error
strings, distinguished here by constructor. -/
inductive CryptoErr where
  | invalidKeyLen
  | invalidIvLen
  | unpadError
  | tagMismatch
deriving DecidableEq

/-- `crypto.rs::encrypt_secret_with_aes_key`: AES-256-CBC encryption with
PKCS7 padding.  The key length must be 32 and the IV length 16 (in the source
the cipher construction itself rejects wrong lengths before the explicit
checks; the observable result is an error either way).  `E` is the keyed AES
block encryption supplied by the `aes` crate. -/
def encrypt_secret_with_aes_key (E : List Nat → List Nat → List Nat)
    (aesKey iv plaintext : List Nat) : Except CryptoErr (List Nat) :=
  if aesKey.length ≠ 32 then .error .invalidKeyLen
  else if iv.length ≠ 16 then .error .invalidIvLen
  else .ok ((cbcEncBlocks (E aesKey) iv (chunks16 (pkcs7Pad plaintext))).flatten)

/-- `crypto.rs::decrypt_secret_with_aes_key`: AES-256-CBC decryption with
PKCS7 unpadding.  Checks the key length (32) and IV length (16) first, then
requires a block-aligned ciphertext, CBC-decrypts and strips the padding;
any padding violation is an error with no plaintext.  `D` is the keyed AES
block decryption. -/
def decrypt_secret_with_aes_key (D : List Nat → List Nat → List Nat)
    (aesKey iv ciphertext : List Nat) : Except CryptoErr (List Nat) :=
  if aesKey.length ≠ 32 then .error .invalidKeyLen
  else if iv.length ≠ 16 then .error .invalidIvLen
  else if ciphertext.length % 16 ≠ 0 then .error .unpadError
  else
    match pkcs7Unpad ((cbcDecBlocks (D aesKey) iv (chunks16 ciphertext)).flatten) with
    | some pt => .ok pt
    | none => .error .unpadError

/-! ## RSA wrapping key (`crypto.rs::RsaKey`, `generate_key_pair`,
`generate_wrapping_key`, `RsaKey::unwrap_key`).  The RSA primitives live in
the external `rsa` crate; a key pair is represented by the PEM texts its
`Display` implementation prints, and OAEP decryption is a parameter. -/

/-- An RSA key pair as held by `RsaKey`, represented by the PKCS1 PEM
encodings of its two halves (what `RsaKey`'s `Display` prints). -/
structure RsaKeyM where
  publicPem : List Char
  privatePem : List Char
deriving DecidableEq

/-- Events of key-pair generation: `rsaNew bits` records the invocation of
the random key-generation step `RsaPrivateKey::new(rng, bits)`. -/
inductive KgEv where
  | rsaNew (bits : Nat)
deriving DecidableEq

/-- `crypto.rs::generate_key_pair`: reject any requested modulus size other
than 2048, 3072 or 4096 before key generation; otherwise invoke the random
key-generation step (`gen`, the external library's `RsaPrivateKey::new`,
whose possible failure propagates).  The second component is the trace of
key-generation invocations. -/
def generate_key_pair (gen : Nat → Except (List Char) RsaKeyM) (keyBits : Nat) :
    Except (List Char) RsaKeyM × List KgEv :=
  if keyBits ≠ 2048 ∧ keyBits ≠ 3072 ∧ keyBits ≠ 4096 then
    (.error ("Key bits must be 2048, 3072 or 4096".toList), [])
  else
    (gen keyBits, [.rsaNew keyBits])

/-- `crypto.rs::generate_wrapping_key`: a 2048-bit pair. -/
def generate_wrapping_key (gen : Nat → Except (List Char) RsaKeyM) :
    Except (List Char) RsaKeyM × List KgEv :=
  generate_key_pair gen 2048

/-- `crypto.rs::RsaKey::unwrap_key`: OAEP-SHA256 decryption of the wrapped
key (`rsaDecrypt`, the private-key operation of the external `rsa` crate)
with its result returned unchanged — no length or content validation. -/
def unwrap_key (rsaDecrypt : List Nat → Except (List Char) (List Nat))
    (encryptedKey : List Nat) : Except (List Char) (List Nat) :=
  match rsaDecrypt encryptedKey with
  | .ok decryptedKey => .ok decryptedKey
  | .error e => .error e

/-- Rust `{:?}` formatting of a string: surrounding double quotes
(escaping of interior characters elided). -/
def rustStringDebug (s : List Char) : List Char :=
  Char.ofNat 34 :: (s ++ [Char.ofNat 34])

/-- `crypto.rs::RsaKey`'s `Display`: prints both the public and the private
key PEM. -/
def rsaKeyDisplay (k : RsaKeyM) : List Char :=
  ("RsaKey \x7b public_key: ".toList) ++ rustStringDebug k.publicPem ++
    (", private_key: ".toList) ++ rustStringDebug k.privatePem ++ (" \x7d".toList)

/-- `main.rs` line 53: the debug line printed right after generating the
wrapping key, formatting the whole `RsaKey` through its `Display`.  Empty
when the debug flag is off. -/
def mainWrappingKeyDebugLine (debug : Bool) (k : RsaKeyM) : List Char :=
  if debug then
    ("\nGenerated wrapping key: ".toList) ++ rsaKeyDisplay k ++ ("\n".toList)
  else []

/-! ## Authenticated symmetric decryption (called by `main.rs` line 151) -/

/-- Mixing fold used by the stand-in keystream and tag functions. -/
def tagFold (l : List Nat) (seed : Nat) : Nat :=
  l.foldl (fun acc b => (acc * 131 + b + 7) % 2 ^ 128) seed

/-- Modelled from the spec: the 16-byte authentication tag of the
authenticated cipher mode over (key, nonce, ciphertext).  The concrete MAC is
library internals absent from the source; this executable stand-in keeps the
spec's shape: the tag is a function of all three inputs. -/
def computeAuthTag (key nonce ciphertext : List Nat) : List Nat :=
  (List.range 16).map (fun i => tagFold (key ++ nonce ++ ciphertext) 1 / 256 ^ i % 256)

/-- Modelled from the spec: the keystream of the stream-based authenticated
mode, a function of key and nonce only. -/
def keystreamBytes (key nonce : List Nat) (len : Nat) : List Nat :=
  (List.range len).map (fun i => (tagFold (key ++ nonce) 2 + 97 * i) % 256)

/-- Modelled from the spec: the four-argument authenticated decrypt that
`main.rs` line 151 invokes with (key, iv, blob, tag).  Its definition is not
under `src/` — `src/src/crypto.rs` holds only the three-argument
CBC revision without a tag.  Per spec §4.2: key must be exactly 32 bytes,
nonce 12 bytes (stream-based authenticated mode), the tag must verify
against the ciphertext, and on tag-verification failure no plaintext bytes
are returned. -/
def decrypt_tagged (key nonce ciphertext tag : List Nat) : Except CryptoErr (List Nat) :=
  if key.length ≠ 32 then .error .invalidKeyLen
  else if nonce.length ≠ 12 then .error .invalidIvLen
  else if tag ≠ computeAuthTag key nonce ciphertext then .error .tagMismatch
  else .ok (xorB ciphertext (keystreamBytes key nonce ciphertext.length))

/-! ## Evidence collection (`tee_evidence.rs`) -/

/-- Operations performed against the configfs tsm report interface during
one evidence request.  `createTempDir` records the successful creation of
the transactional working scope, `dropTempDir` its release (which Rust's
`TempDir` destructor runs on every exit from the function's scope, both at
the explicit `drop` on the success path and at each early `?`-return). -/
inductive TeeEv where
  | createTempDir
  | readProvider
  | writeInblob
  | readVmpl
  | writePrivlevel
  | readOutblob
  | dropTempDir
deriving DecidableEq

/-- Errors of `tee_get_evidence`; the source formats error strings,
distinguished here by constructor.  `invalidNonce` carries the offending
length, as the source's message does. -/
inductive TeeErr where
  | invalidNonce (len : Nat)
  | tempdirFail
  | teeTypeFail (msg : List Char)
  | inblobFail
  | vmplFail
  | privlevelFail
  | outblobFail
deriving DecidableEq

/-- The platform state `tee_get_evidence` interacts with: whether creating
the working scope succeeds, the contents of the `provider` identifier file
(`none` = read failure), whether the `inblob` write succeeds, the contents
of the VMPL source path, whether the `privlevel` write succeeds, and the
contents of the `outblob` report slot. -/
structure TsmEnv where
  tempdirOk : Bool
  provider : Option (List Char)
  inblobWriteOk : Bool
  vmpl : Option (List Char)
  privlevelWriteOk : Bool
  outblob : Option (List Nat)

/-- `tee_evidence.rs::get_tee_type`: read the `provider` identifier file in
the working scope, trim it, and map it through the closed set
sev_guest ↦ amd-sev-snp, tdx_guest ↦ intel-tdx; anything else is an
unsupported-platform error. -/
def get_tee_type (providerFile : Option (List Char)) : Except (List Char) (List Char) :=
  match providerFile with
  | none => .error ("failed to read provider".toList)
  | some provider =>
    if trimChars provider = "sev_guest".toList then .ok ("amd-sev-snp".toList)
    else if trimChars provider = "tdx_guest".toList then .ok ("intel-tdx".toList)
    else .error ("Unknown TEE provider: ".toList ++ trimChars provider)

/-- `tee_evidence.rs::tee_get_evidence`: strip surrounding quotes from the
nonce, require exactly 64 bytes, create the transactional working scope
inside the report-interface root, determine the TEE type, write the nonce to
`inblob`, for amd-sev-snp only read the VMPL and write `privlevel`, read the
report from `outblob`, release the scope, and base64-encode the report.
Returns the result together with the trace of interface operations; the
scope-release event appears on every path past scope creation because the
`TempDir` destructor runs at every return. -/
def tee_get_evidence (env : TsmEnv) (nonce : List Nat) :
    Except TeeErr (List Char × List Char) × List TeeEv :=
  if (trimQuotes nonce).length ≠ 64 then
    (.error (.invalidNonce (trimQuotes nonce).length), [])
  else if env.tempdirOk = false then
    (.error .tempdirFail, [])
  else
    match get_tee_type env.provider with
    | .error m => (.error (.teeTypeFail m), [.createTempDir, .readProvider, .dropTempDir])
    | .ok teeType =>
      if env.inblobWriteOk = false then
        (.error .inblobFail, [.createTempDir, .readProvider, .writeInblob, .dropTempDir])
      else if teeType = "amd-sev-snp".toList then
        match env.vmpl with
        | none =>
          (.error .vmplFail,
            [.createTempDir, .readProvider, .writeInblob, .readVmpl, .dropTempDir])
        | some _ =>
          if env.privlevelWriteOk = false then
            (.error .privlevelFail,
              [.createTempDir, .readProvider, .writeInblob, .readVmpl, .writePrivlevel,
                .dropTempDir])
          else
            match env.outblob with
            | none =>
              (.error .outblobFail,
                [.createTempDir, .readProvider, .writeInblob, .readVmpl, .writePrivlevel,
                  .readOutblob, .dropTempDir])
            | some report =>
              (.ok (base64Encode report, teeType),
                [.createTempDir, .readProvider, .writeInblob, .readVmpl, .writePrivlevel,
                  .readOutblob, .dropTempDir])
      else
        match env.outblob with
        | none =>
          (.error .outblobFail,
            [.createTempDir, .readProvider, .writeInblob, .readOutblob, .dropTempDir])
        | some report =>
          (.ok (base64Encode report, teeType),
            [.createTempDir, .readProvider, .writeInblob, .readOutblob, .dropTempDir])

/-! ## Secrets payload (`utils.rs`) and the orchestrator tail (`main.rs`) -/

/-- `utils.rs::SecretsPayload`: the four byte fields of the secret envelope
after base64 decoding. -/
structure SecretsPayload where
  wrapped_key : List Nat
  blob : List Nat
  iv : List Nat
  tag : List Nat
deriving DecidableEq

/-- `utils.rs::deserialize_base64`: decode one base64 text field to bytes,
failing with a decoding error otherwise. -/
def deserialize_base64 (field : List Char) : Except (List Char) (List Nat) :=
  match base64Decode field with
  | some bytes => .ok bytes
  | none => .error ("Base64 decoding error".toList)

/-- Deserialization of a `SecretsPayload` from its four base64 text fields
(the JSON framing is handled by the external `serde_json`); the first field
that fails to decode fails the whole payload, no field partially applied. -/
def parseSecretsPayload (wk blob iv tag : List Char) : Except (List Char) SecretsPayload :=
  match deserialize_base64 wk with
  | .error e => .error e
  | .ok w =>
    match deserialize_base64 blob with
    | .error e => .error e
    | .ok b =>
      match deserialize_base64 iv with
      | .error e => .error e
      | .ok i =>
        match deserialize_base64 tag with
        | .error e => .error e
        | .ok t => .ok ⟨w, b, i, t⟩

/-- Cryptographic operations the orchestrator performs after receiving the
secret envelope. -/
inductive OrchEv where
  | unwrapKey
  | symDecrypt
deriving DecidableEq

/-- `main.rs` lines 126–158: deserialize the secret payload (process exit on
failure, before any cryptographic call), unwrap the symmetric key with the
RSA private key, then run the authenticated symmetric decrypt on
(key, iv, blob, tag).  The second component is the trace of cryptographic
operations invoked. -/
def processSecretString (rsaDecrypt : List Nat → Except (List Char) (List Nat))
    (wk blob iv tag : List Char) : Except (List Char) (List Nat) × List OrchEv :=
  match parseSecretsPayload wk blob iv tag with
  | .error e => (.error e, [])
  | .ok p =>
    match unwrap_key rsaDecrypt p.wrapped_key with
    | .error e => (.error e, [.unwrapKey])
    | .ok aesKey =>
      match decrypt_tagged aesKey p.iv p.blob p.tag with
      | .error _ => (.error ("Crypto Decrypt Error".toList), [.unwrapKey, .symDecrypt])
      | .ok pt => (.ok pt, [.unwrapKey, .symDecrypt])

/-! ## Supporting lemmas -/

lemma length_xorB (a b : List Nat) : (xorB a b).length = min a.length b.length := by
  simp [xorB]

lemma xorB_cancel (a b : List Nat) (h : a.length = b.length) : xorB a (xorB a b) = b := by
  induction a generalizing b with
  | nil => cases b with | nil => rfl | cons y ys => simp at h
  | cons x xs ih =>
    cases b with
    | nil => simp at h
    | cons y ys =>
      simp only [xorB, List.zipWith_cons_cons] at *
      rw [Nat.xor_cancel_left]
      rw [List.length_cons, List.length_cons, Nat.add_right_cancel_iff] at h
      exact congrArg _ (ih ys h)

lemma cbcEncBlocks_lengths (enc : List Nat → List Nat)
    (hlen : ∀ b, b.length = 16 → (enc b).length = 16) :
    ∀ (ps : List (List Nat)) (iv : List Nat), iv.length = 16 →
      (∀ p ∈ ps, p.length = 16) → ∀ c ∈ cbcEncBlocks enc iv ps, c.length = 16 := by
  intro ps
  induction ps with
  | nil => intro iv _ _ c hc; simp [cbcEncBlocks] at hc
  | cons p ps ih =>
    intro iv hiv hp c hc
    have hxor : (xorB iv p).length = 16 := by
      rw [length_xorB, hiv, hp p (by simp)]; simp
    have hc1 : (enc (xorB iv p)).length = 16 := hlen _ hxor
    simp only [cbcEncBlocks, List.mem_cons] at hc
    rcases hc with rfl | hc
    · exact hc1
    · exact ih (enc (xorB iv p)) hc1 (fun q hq => hp q (by simp [hq])) c hc

lemma cbcDec_cbcEnc (enc dec : List Nat → List Nat)
    (hlen : ∀ b, b.length = 16 → (enc b).length = 16)
    (hinv : ∀ b, b.length = 16 → dec (enc b) = b) :
    ∀ (ps : List (List Nat)) (iv : List Nat), iv.length = 16 →
      (∀ p ∈ ps, p.length = 16) →
      cbcDecBlocks dec iv (cbcEncBlocks enc iv ps) = ps := by
  intro ps
  induction ps with
  | nil => intro iv _ _; rfl
  | cons p ps ih =>
    intro iv hiv hp
    have hp0 : p.length = 16 := hp p (by simp)
    have hxor : (xorB iv p).length = 16 := by rw [length_xorB, hiv, hp0]; simp
    simp only [cbcEncBlocks, cbcDecBlocks]
    rw [hinv _ hxor, xorB_cancel iv p (hiv.trans hp0.symm),
      ih (enc (xorB iv p)) (hlen _ hxor) (fun q hq => hp q (by simp [hq]))]

lemma chunksAux_nil (fuel : Nat) : chunksAux fuel [] = [] := by
  cases fuel <;> rfl

lemma chunksAux_cons (fuel : Nat) (a : Nat) (rest : List Nat) :
    chunksAux (fuel + 1) (a :: rest) =
      (a :: rest).take 16 :: chunksAux fuel ((a :: rest).drop 16) := rfl

lemma chunksAux_flatten (fuel : Nat) :
    ∀ l : List Nat, l.length ≤ fuel → (chunksAux fuel l).flatten = l := by
  induction fuel with
  | zero =>
    intro l h
    have hl : l = [] := List.eq_nil_of_length_eq_zero (Nat.le_zero.mp h)
    subst hl; rfl
  | succ fuel ih =>
    intro l h
    cases l with
    | nil => rfl
    | cons a rest =>
      rw [chunksAux_cons, List.flatten_cons,
        ih _ (by rw [List.length_drop, List.length_cons]
                 rw [List.length_cons] at h
                 omega)]
      exact List.take_append_drop 16 (a :: rest)

lemma chunksAux_blocks_len (fuel : Nat) :
    ∀ l : List Nat, l.length % 16 = 0 → ∀ b ∈ chunksAux fuel l, b.length = 16 := by
  induction fuel with
  | zero => intro l _ b hb; cases l <;> simp [chunksAux] at hb
  | succ fuel ih =>
    intro l hmod b hb
    cases l with
    | nil => simp [chunksAux] at hb
    | cons a rest =>
      have hge : 16 ≤ (a :: rest).length := by
        rw [List.length_cons]
        rw [List.length_cons] at hmod
        omega
      rw [chunksAux_cons] at hb
      simp only [List.mem_cons] at hb
      rcases hb with rfl | hb
      · rw [List.length_take]
        omega
      · exact ih _ (by rw [List.length_drop]; omega) b hb

lemma chunksAux_of_blocks :
    ∀ (bs : List (List Nat)) (fuel : Nat), (∀ b ∈ bs, b.length = 16) →
      bs.flatten.length ≤ fuel → chunksAux fuel bs.flatten = bs := by
  intro bs
  induction bs with
  | nil => intro fuel _ _; exact chunksAux_nil fuel
  | cons b bs ih =>
    intro fuel hb hlen
    have hb0 : b.length = 16 := hb b (by simp)
    rw [List.flatten_cons] at *
    rw [List.length_append, hb0] at hlen
    cases fuel with
    | zero => omega
    | succ fuel =>
      obtain ⟨x, xs, rfl⟩ : ∃ x xs, b = x :: xs := by
        cases b with
        | nil => simp at hb0
        | cons x xs => exact ⟨x, xs, rfl⟩
      rw [List.cons_append, chunksAux_cons, ← List.cons_append,
        List.take_left' hb0, List.drop_left' hb0,
        ih fuel (fun q hq => hb q (by simp [hq])) (by omega)]

lemma flatten_mod16 (bs : List (List Nat)) (hb : ∀ b ∈ bs, b.length = 16) :
    bs.flatten.length % 16 = 0 := by
  induction bs with
  | nil => rfl
  | cons b bs ih =>
    rw [List.flatten_cons, List.length_append, hb b (by simp)]
    have h2 := ih (fun q hq => hb q (by simp [hq]))
    omega

lemma pkcs7Pad_length_mod (l : List Nat) : (pkcs7Pad l).length % 16 = 0 := by
  rw [pkcs7Pad, List.length_append, List.length_replicate]
  omega

lemma pkcs7Unpad_pad (l : List Nat) : pkcs7Unpad (pkcs7Pad l) = some l := by
  obtain ⟨m, hm⟩ : ∃ m, 16 - l.length % 16 = m + 1 :=
    ⟨16 - l.length % 16 - 1, by omega⟩
  have hlast : (pkcs7Pad l).getLast? = some (16 - l.length % 16) := by
    rw [pkcs7Pad, hm, List.replicate_succ' m (m + 1), ← List.append_assoc]
    exact List.getLast?_concat _
  have hlen : (pkcs7Pad l).length = l.length + (16 - l.length % 16) := by
    rw [pkcs7Pad, List.length_append, List.length_replicate]
  rw [pkcs7Unpad]
  simp only [hlast, Option.getD_some]
  rw [if_pos]
  · rw [hlen, Nat.add_sub_cancel, pkcs7Pad, List.take_left]
  · refine ⟨by omega, by omega, by omega, ?_⟩
    intro x hx
    rw [hlen, Nat.add_sub_cancel, pkcs7Pad, List.drop_left] at hx
    exact (List.mem_replicate.mp hx).2

/-! ## Claim theorems -/

/-- Claim C1: whenever the authentication tag does not verify against the
ciphertext under the given key and nonce, the authenticated symmetric
decrypt fails with a CryptoError and returns no plaintext bytes. -/
theorem C1_tag_failure_yields_no_plaintext (key nonce ct tag : List Nat)
    (h : tag ≠ computeAuthTag key nonce ct) :
    (∃ e, decrypt_tagged key nonce ct tag = .error e) ∧
      ∀ pt, decrypt_tagged key nonce ct tag ≠ .ok pt := by
  have hE : ∃ e, decrypt_tagged key nonce ct tag = .error e := by
    unfold decrypt_tagged
    by_cases h1 : key.length ≠ 32
    · rw [if_pos h1]
      exact ⟨.invalidKeyLen, rfl⟩
    · rw [if_neg h1]
      by_cases h2 : nonce.length ≠ 12
      · rw [if_pos h2]
        exact ⟨.invalidIvLen, rfl⟩
      · rw [if_neg h2, if_pos h]
        exact ⟨.tagMismatch, rfl⟩
  refine ⟨hE, fun pt hpt => ?_⟩
  obtain ⟨e, he⟩ := hE
  rw [he] at hpt
  exact Except.noConfusion hpt

theorem C1_witness :
    ∃ e, decrypt_tagged (List.replicate 32 0) (List.replicate 12 0) [1, 2, 3] [] =
      .error e :=
  (C1_tag_failure_yields_no_plaintext (List.replicate 32 0) (List.replicate 12 0)
    [1, 2, 3] [] (by decide)).1

/-- Claim C2: a nonce whose length after stripping surrounding double quotes
is not 64 makes `tee_get_evidence` fail with the invalid-nonce error, with an
empty interface trace — in particular before the transactional working scope
is created. -/
theorem C2_short_nonce_fails_before_scope (env : TsmEnv) (nonce : List Nat)
    (h : (trimQuotes nonce).length ≠ 64) :
    tee_get_evidence env nonce =
      (.error (.invalidNonce (trimQuotes nonce).length), []) := by
  unfold tee_get_evidence
  rw [if_pos h]

theorem C2_witness :
    tee_get_evidence
      ⟨true, some ("sev_guest\n".toList), true, some ("0\n".toList), true, some [1, 2, 3]⟩
      [49, 50, 51] = (.error (.invalidNonce 3), []) :=
  C2_short_nonce_fails_before_scope _ [49, 50, 51] (by decide)

/-- Claim C5: key-pair generation invokes the random key-generation step and
returns its key for every requested size in {2048, 3072, 4096}, and fails
with the invalid-parameter error for every other size without invoking the
random key-generation step. -/
theorem C5_key_size_guard (gen : Nat → Except (List Char) RsaKeyM) (bits : Nat) :
    (∀ k, (bits = 2048 ∨ bits = 3072 ∨ bits = 4096) → gen bits = .ok k →
      generate_key_pair gen bits = (.ok k, [.rsaNew bits])) ∧
    (bits ≠ 2048 → bits ≠ 3072 → bits ≠ 4096 →
      generate_key_pair gen bits =
        (.error ("Key bits must be 2048, 3072 or 4096".toList), [])) := by
  constructor
  · intro k hb hg
    unfold generate_key_pair
    rcases hb with h | h | h <;> subst h <;> simp [hg]
  · intro h1 h2 h3
    unfold generate_key_pair
    rw [if_pos ⟨h1, h2, h3⟩]

theorem C5_witness :
    generate_key_pair (fun _ => .ok ⟨"PUB".toList, "PRIV".toList⟩) 2048 =
      (.ok ⟨"PUB".toList, "PRIV".toList⟩, [.rsaNew 2048]) ∧
    generate_key_pair (fun _ => .ok ⟨"PUB".toList, "PRIV".toList⟩) 1024 =
      (.error ("Key bits must be 2048, 3072 or 4096".toList), []) :=
  ⟨(C5_key_size_guard (fun _ => .ok ⟨"PUB".toList, "PRIV".toList⟩) 2048).1 _
      (Or.inl rfl) rfl,
    (C5_key_size_guard (fun _ => .ok ⟨"PUB".toList, "PRIV".toList⟩) 1024).2
      (by decide) (by decide) (by decide)⟩

/-- Claim C8 (violated by the code): with debug tracing enabled, the debug
line `main.rs` prints after generating the wrapping key contains the private
key PEM of the ephemeral key pair as a contiguous substring — the output
does contain private key material. -/
theorem C8_debug_output_contains_private_key (k : RsaKeyM) :
    ∃ pre post, mainWrappingKeyDebugLine true k = pre ++ k.privatePem ++ post := by
  refine ⟨("\nGenerated wrapping key: ".toList) ++ ("RsaKey \x7b public_key: ".toList) ++
      rustStringDebug k.publicPem ++ (", private_key: ".toList) ++ [Char.ofNat 34],
    [Char.ofNat 34] ++ (" \x7d".toList) ++ ("\n".toList), ?_⟩
  simp [mainWrappingKeyDebugLine, rsaKeyDisplay, rustStringDebug]

/-- Claim C9: `get_tee_type` maps the trimmed provider identifier through
the closed set sev_guest ↦ amd-sev-snp, tdx_guest ↦ intel-tdx, and fails
with the unsupported-platform error on every other identifier. -/
theorem C9_tee_type_closed_map (p : List Char) :
    (trimChars p = "sev_guest".toList →
      get_tee_type (some p) = .ok ("amd-sev-snp".toList)) ∧
    (trimChars p = "tdx_guest".toList →
      get_tee_type (some p) = .ok ("intel-tdx".toList)) ∧
    (trimChars p ≠ "sev_guest".toList → trimChars p ≠ "tdx_guest".toList →
      get_tee_type (some p) =
        .error ("Unknown TEE provider: ".toList ++ trimChars p)) := by
  refine ⟨fun h => ?_, fun h => ?_, fun h1 h2 => ?_⟩
  · simp [get_tee_type, h]
  · simp [get_tee_type, h]
  · simp only [get_tee_type]
    rw [if_neg h1, if_neg h2]

theorem C9_witness :
    get_tee_type (some (" sev_guest\n".toList)) = .ok ("amd-sev-snp".toList) :=
  (C9_tee_type_closed_map (" sev_guest\n".toList)).1 (by decide)

/-- Claim C10: `unwrap_key` returns whatever the OAEP decryption yields,
with no validation of its length; the 32-byte requirement on the symmetric
key is enforced only later, by the symmetric decrypt operation's key-length
check. -/
theorem C10_unwrap_no_validation
    (rsaDecrypt : List Nat → Except (List Char) (List Nat)) (enc out : List Nat)
    (h : rsaDecrypt enc = .ok out) (D : List Nat → List Nat → List Nat)
    (iv ct : List Nat) :
    unwrap_key rsaDecrypt enc = .ok out ∧
    (out.length ≠ 32 →
      decrypt_secret_with_aes_key D out iv ct = .error .invalidKeyLen) := by
  constructor
  · unfold unwrap_key
    rw [h]
  · intro hlen
    unfold decrypt_secret_with_aes_key
    rw [if_pos hlen]

theorem C10_witness :
    unwrap_key (fun _ => .ok (List.replicate 7 1)) [5] = .ok (List.replicate 7 1) ∧
    decrypt_secret_with_aes_key (fun _ b => b) (List.replicate 7 1) [] [] =
      .error .invalidKeyLen :=
  ⟨(C10_unwrap_no_validation (fun _ => .ok (List.replicate 7 1)) [5]
      (List.replicate 7 1) rfl (fun _ b => b) [] []).1,
    (C10_unwrap_no_validation (fun _ => .ok (List.replicate 7 1)) [5]
      (List.replicate 7 1) rfl (fun _ b => b) [] []).2 (by decide)⟩

lemma tee_trace_shape (env : TsmEnv) (nonce : List Nat) :
    (tee_get_evidence env nonce).2 = [] ∨
    (TeeEv.dropTempDir ∈ (tee_get_evidence env nonce).2 ∧
      (tee_get_evidence env nonce).2.getLast? = some TeeEv.dropTempDir) := by
  unfold tee_get_evidence
  repeat' split
  all_goals simp

/-- Claim C3: on every execution of `tee_get_evidence` in which the
transactional working scope was created, the scope is released — the
release event is in the trace, and it is the last interface operation
before the function returns, on the success path and on every failure
path. -/
theorem C3_scope_always_released (env : TsmEnv) (nonce : List Nat)
    (h : TeeEv.createTempDir ∈ (tee_get_evidence env nonce).2) :
    TeeEv.dropTempDir ∈ (tee_get_evidence env nonce).2 ∧
      (tee_get_evidence env nonce).2.getLast? = some TeeEv.dropTempDir := by
  rcases tee_trace_shape env nonce with h0 | h1
  · rw [h0] at h
    simp at h
  · exact h1

theorem C3_witness :
    TeeEv.dropTempDir ∈
      (tee_get_evidence
        ⟨true, some ("sev_guest\n".toList), true, some ("0\n".toList), true,
          some [1, 2, 3]⟩ (List.replicate 64 55)).2 ∧
    (tee_get_evidence
        ⟨true, some ("sev_guest\n".toList), true, some ("0\n".toList), true,
          some [1, 2, 3]⟩ (List.replicate 64 55)).2.getLast? =
      some TeeEv.dropTempDir :=
  C3_scope_always_released _ _ (by decide)

lemma tee_vmpl_only_sev (env : TsmEnv) (nonce : List Nat)
    (h : TeeEv.readVmpl ∈ (tee_get_evidence env nonce).2 ∨
         TeeEv.writePrivlevel ∈ (tee_get_evidence env nonce).2) :
    get_tee_type env.provider = .ok ("amd-sev-snp".toList) := by
  unfold tee_get_evidence at h
  repeat' split at h
  all_goals simp_all

/-- Claim C4: when the platform identifier file trims to `tdx_guest`, the
privilege-level step is never performed — neither the VMPL source read nor
the `privlevel` write appears in the trace; and conversely those operations
occur only when the determined TEE kind is amd-sev-snp. -/
theorem C4_privlevel_only_for_sev (env : TsmEnv) (nonce : List Nat) :
    (∀ p, env.provider = some p → trimChars p = "tdx_guest".toList →
      TeeEv.readVmpl ∉ (tee_get_evidence env nonce).2 ∧
      TeeEv.writePrivlevel ∉ (tee_get_evidence env nonce).2) ∧
    ((TeeEv.readVmpl ∈ (tee_get_evidence env nonce).2 ∨
      TeeEv.writePrivlevel ∈ (tee_get_evidence env nonce).2) →
      get_tee_type env.provider = .ok ("amd-sev-snp".toList)) := by
  refine ⟨fun p hp ht => ?_, tee_vmpl_only_sev env nonce⟩
  constructor
  · intro hmem
    have hg := tee_vmpl_only_sev env nonce (Or.inl hmem)
    rw [hp] at hg
    simp [get_tee_type, ht] at hg
  · intro hmem
    have hg := tee_vmpl_only_sev env nonce (Or.inr hmem)
    rw [hp] at hg
    simp [get_tee_type, ht] at hg

theorem C4_witness :
    TeeEv.readVmpl ∉
      (tee_get_evidence
        ⟨true, some ("tdx_guest\n".toList), true, some ("0\n".toList), true,
          some [1, 2, 3]⟩ (List.replicate 64 55)).2 ∧
    TeeEv.writePrivlevel ∉
      (tee_get_evidence
        ⟨true, some ("tdx_guest\n".toList), true, some ("0\n".toList), true,
          some [1, 2, 3]⟩ (List.replicate 64 55)).2 :=
  (C4_privlevel_only_for_sev _ _).1 ("tdx_guest\n".toList) rfl (by decide)

lemma parse_ok_decodes {wk blob iv tag : List Char} {p : SecretsPayload}
    (h : parseSecretsPayload wk blob iv tag = .ok p) :
    (base64Decode wk).isSome ∧ (base64Decode blob).isSome ∧
    (base64Decode iv).isSome ∧ (base64Decode tag).isSome := by
  unfold parseSecretsPayload deserialize_base64 at h
  rcases hw : base64Decode wk with _ | w <;> rw [hw] at h
  · simp at h
  rcases hb : base64Decode blob with _ | b <;> rw [hb] at h
  · simp at h
  rcases hi : base64Decode iv with _ | i <;> rw [hi] at h
  · simp at h
  rcases ht : base64Decode tag with _ | t <;> rw [ht] at h
  · simp at h
  simp

/-- Claim C7: if any of the four envelope fields fails to decode from
base64, the whole payload is rejected with a decoding error (no field
partially applied), and the orchestrator performs neither the key-unwrap
nor the symmetric decrypt — its cryptographic trace is empty. -/
theorem C7_envelope_decode_failure_is_fatal (wk blob iv tag : List Char)
    (h : base64Decode wk = none ∨ base64Decode blob = none ∨
         base64Decode iv = none ∨ base64Decode tag = none) :
    (∃ e, parseSecretsPayload wk blob iv tag = .error e) ∧
    ∀ rsaDecrypt, ∃ e,
      processSecretString rsaDecrypt wk blob iv tag = (.error e, []) := by
  have hp : ∃ e, parseSecretsPayload wk blob iv tag = .error e := by
    cases hres : parseSecretsPayload wk blob iv tag with
    | error e => exact ⟨e, rfl⟩
    | ok p =>
      obtain ⟨h1, h2, h3, h4⟩ := parse_ok_decodes hres
      rcases h with h | h | h | h <;> simp_all
  obtain ⟨e, he⟩ := hp
  exact ⟨⟨e, he⟩, fun rsaDecrypt => ⟨e, by unfold processSecretString; rw [he]⟩⟩

theorem C7_witness :
    ∃ e, parseSecretsPayload ("!".toList) [] [] [] = .error e :=
  (C7_envelope_decode_failure_is_fatal ("!".toList) [] [] []
    (Or.inl (by decide))).1

/-- Claim C6: for every plaintext and every 32-byte key and 16-byte IV,
decrypting the output of `encrypt_secret_with_aes_key` with
`decrypt_secret_with_aes_key` recovers exactly the plaintext, for any block
cipher `E` with inverse `D` on 16-byte blocks (as AES is). -/
theorem C6_symmetric_round_trip (E D : List Nat → List Nat → List Nat)
    (key iv P ct : List Nat) (hkey : key.length = 32) (hiv : iv.length = 16)
    (hED : ∀ b, b.length = 16 → D key (E key b) = b)
    (hElen : ∀ b, b.length = 16 → (E key b).length = 16)
    (henc : encrypt_secret_with_aes_key E key iv P = .ok ct) :
    decrypt_secret_with_aes_key D key iv ct = .ok P := by
  unfold encrypt_secret_with_aes_key at henc
  rw [if_neg (by simp [hkey]), if_neg (by simp [hiv])] at henc
  have hct : ct = (cbcEncBlocks (E key) iv (chunks16 (pkcs7Pad P))).flatten := by
    cases henc
    rfl
  subst hct
  have hpadmod : (pkcs7Pad P).length % 16 = 0 := pkcs7Pad_length_mod P
  have hblocks : ∀ b ∈ chunks16 (pkcs7Pad P), b.length = 16 :=
    chunksAux_blocks_len _ _ hpadmod
  have hencblocks : ∀ c ∈ cbcEncBlocks (E key) iv (chunks16 (pkcs7Pad P)),
      c.length = 16 :=
    cbcEncBlocks_lengths (E key) hElen _ iv hiv hblocks
  have hctmod : (cbcEncBlocks (E key) iv (chunks16 (pkcs7Pad P))).flatten.length % 16
      = 0 := flatten_mod16 _ hencblocks
  unfold decrypt_secret_with_aes_key
  rw [if_neg (by simp [hkey]), if_neg (by simp [hiv]),
    if_neg (not_ne_iff.mpr hctmod)]
  have hchunks :
      chunks16 ((cbcEncBlocks (E key) iv (chunks16 (pkcs7Pad P))).flatten) =
        cbcEncBlocks (E key) iv (chunks16 (pkcs7Pad P)) :=
    chunksAux_of_blocks _ _ hencblocks (Nat.le_refl _)
  rw [hchunks, cbcDec_cbcEnc (E key) (D key) hElen hED _ iv hiv hblocks]
  rw [show (chunks16 (pkcs7Pad P)).flatten = pkcs7Pad P from
    chunksAux_flatten _ _ (Nat.le_refl _)]
  rw [pkcs7Unpad_pad]

theorem C6_witness :
    decrypt_secret_with_aes_key (fun _ b => b) (List.replicate 32 0)
      (List.replicate 16 0) ([1, 2, 3] ++ List.replicate 13 13) = .ok [1, 2, 3] :=
  C6_symmetric_round_trip (fun _ b => b) (fun _ b => b) (List.replicate 32 0)
    (List.replicate 16 0) [1, 2, 3] ([1, 2, 3] ++ List.replicate 13 13)
    (by decide) (by decide) (fun b _ => rfl) (fun b hb => hb) (by decide)

end TasAgent
